import Mathlib

/-!
Verification of the Hyperplane curve & fee engine specification against the
repository's sources.  The TypeScript client and its test suite are embedded
shallowly; the on-chain pricing/fee engine itself is not part of the shipped
sources, so those operations are modelled from the specification text and
cross-checked against the reference computations that do appear in the tests.
-/

namespace Hyperplane

/-- Errors of the engine, following the error taxonomy of the specification. -/
inductive SwapError where
  | slippageExceeded : SwapError
  | operationDisabled : SwapError
  | insufficientLiquidity : SwapError
deriving DecidableEq

/-- The six fee ratios attached to a pool, as stored in the `Fees` account
structure of the client (`src/js/src/index.ts`, fields of `TokenSwap`). -/
structure Fees where
  tradeFeeNumerator : ℕ
  tradeFeeDenominator : ℕ
  ownerTradeFeeNumerator : ℕ
  ownerTradeFeeDenominator : ℕ
  ownerWithdrawFeeNumerator : ℕ
  ownerWithdrawFeeDenominator : ℕ
  hostFeeNumerator : ℕ
  hostFeeDenominator : ℕ
deriving DecidableEq

/-- Modelled from the spec: `FeeCalculator.fee(amount, ratio)` — a zero
denominator means the fee is disabled and yields 0, otherwise the fee is
`floor(amount * numerator / denominator)` (the engine itself is not under the
shipped sources). -/
def fee (amount numerator denominator : ℕ) : ℕ :=
  if denominator = 0 then 0 else amount * numerator / denominator

/-- Ceiling division on naturals, used to express the round-down-in-favour-of
the-pool output of the constant product curve. -/
def ceilDiv (a b : ℕ) : ℕ := (a + b - 1) / b

/-- Modelled from the spec: the ConstantProduct swap output
`floor(reserveOut - (reserveIn*reserveOut)/(reserveIn + netIn))`, which for
integer arguments equals `reserveOut - ceil((reserveIn*reserveOut)/(reserveIn + netIn))`. -/
def constantProductOut (reserveIn reserveOut netIn : ℕ) : ℕ :=
  reserveOut - ceilDiv (reserveIn * reserveOut) (reserveIn + netIn)

/-- Result record of a successful swap: amounts moved, the fee split and the
new reserves. -/
structure SwapResult where
  amountOut : ℕ
  tradeFee : ℕ
  ownerFee : ℕ
  hostFee : ℕ
  newReserveIn : ℕ
  newReserveOut : ℕ
deriving DecidableEq

/-- Modelled from the spec: the swap operation of `PoolAccounting` (§4.3) on a
ConstantProduct pool.  Trade fee and owner-trade fee are computed independently
from the same gross `amountIn`, both are subtracted before the curve runs, the
host fee is sliced out of the owner fee, and the reserve update adds the gross
`amountIn` to the source side while subtracting `amountOut` from the
destination side (the engine itself is not under the shipped sources). -/
def swap (f : Fees) (withdrawalsOnly : Bool)
    (reserveIn reserveOut amountIn minimumAmountOut : ℕ) :
    Except SwapError SwapResult :=
  if withdrawalsOnly then .error .operationDisabled
  else if reserveIn = 0 ∨ reserveOut = 0 then .error .insufficientLiquidity
  else
    let tFee := fee amountIn f.tradeFeeNumerator f.tradeFeeDenominator
    let oFee := fee amountIn f.ownerTradeFeeNumerator f.ownerTradeFeeDenominator
    let net := amountIn - tFee - oFee
    let out := constantProductOut reserveIn reserveOut net
    if out < minimumAmountOut then .error .slippageExceeded
    else
      .ok ⟨out, tFee, oFee, fee oFee f.hostFeeNumerator f.hostFeeDenominator,
           reserveIn + amountIn, reserveOut - out⟩

/-- The pool fee configuration used by the test suite in production mode
(`src/js/test/hyperplane-test.ts`, lines 37–44): trade fee 25/10000,
owner-trade fee 5/10000, owner-withdraw fee 0/0, host fee 20/100. -/
def productionFees : Fees := ⟨25, 10000, 5, 10000, 0, 0, 20, 100⟩

/-- The pool fee configuration used by the test suite on a local validator
(`src/js/test/hyperplane-test.ts`, lines 37–44, with no owner fee address):
the owner-withdraw fee is 1/6 instead of disabled. -/
def localnetFees : Fees := ⟨25, 10000, 5, 10000, 1, 6, 20, 100⟩

/-- Modelled from the spec: `withdrawAllTokenTypes` (§4.3) — the
owner-withdraw fee is taken from the pool-token amount first (denominated in
pool tokens, credited to the fee vault), the remainder is converted through
`poolTokensToTokens`, i.e. `floor(reserve * remainder / supply)` applied to
each reserve independently (the engine itself is not under the shipped
sources; the reference computation appears in `src/js/test/hyperplane-test.ts`
lines 292–305).  Returns `(feeVaultCredit, tokenA, tokenB)`. -/
def withdrawAllTokenTypes (f : Fees) (reserveA reserveB supply poolTokenAmount minA minB : ℕ) :
    Except SwapError (ℕ × ℕ × ℕ) :=
  if supply = 0 then .error .insufficientLiquidity
  else
    let wFee := fee poolTokenAmount f.ownerWithdrawFeeNumerator f.ownerWithdrawFeeDenominator
    let rem := poolTokenAmount - wFee
    let tokenA := reserveA * rem / supply
    let tokenB := reserveB * rem / supply
    if tokenA < minA ∨ tokenB < minB then .error .slippageExceeded
    else .ok (wFee, tokenA, tokenB)

/-- The host fee carved out of a total swap fee, as in
`src/js/test/hyperplane-test.ts` line 57: `floor(swapFee * hostNum / hostDen)`
(0 when the host fee is disabled). -/
def hostSwapFee (totalFee hn hd : ℕ) : ℕ := fee totalFee hn hd

/-- The owner's remaining share of a total swap fee, as in
`src/js/test/hyperplane-test.ts` line 60: `OWNER_SWAP_FEE = SWAP_FEE - HOST_SWAP_FEE`. -/
def ownerSwapFee (totalFee hn hd : ℕ) : ℕ := totalFee - hostSwapFee totalFee hn hd

/-- Modelled from the spec: `setMode(WithdrawalsOnly, value)` (§4.3) writes the
serialized boolean into the pool's `withdrawalsOnly` u64 field, replacing the
previous state (the on-chain config update handler is not under the shipped
sources; the client encodes the value via `updatePoolConfigInstruction` and
`serializeConfigValue`). -/
def updatePoolConfigWithdrawalsOnly (_state : ℕ) (value : Bool) : ℕ :=
  if value then 1 else 0

/-- The decoding used by `loadSwapPool` (`src/unnamed/part_002` line 205):
`withdrawalsOnly.toNumber() !== 0`. -/
def loadWithdrawalsOnly (raw : ℕ) : Bool := raw != 0

/-- The `CurveParameters` tagged union from the specification data model
(§3).  The `stableSwap` variant is included because the specification lists
it; the client sources construct only the other three. -/
inductive CurveParameters where
  | constantProduct : CurveParameters
  | constantPrice (tokenBPrice : ℕ) : CurveParameters
  | offset (tokenBOffset : ℕ) : CurveParameters
  | stableSwap (amplifier : ℕ) : CurveParameters
deriving DecidableEq

/-- `getCurveParams` from `src/unnamed/part_002` lines 79–90 (identical in
`src/js/src/index.ts`): dispatch on the integer tag of the frozen `CurveType`
object (`ConstantProduct: 1, ConstantPrice: 2, Offset: 3`); every other tag
throws `invalid curve type`. -/
def getCurveParams (curveType : ℕ) (params : ℕ) : Except String CurveParameters :=
  match curveType with
  | 1 => .ok .constantProduct
  | 2 => .ok (.constantPrice params)
  | 3 => .ok (.offset params)
  | _ => .error "invalid curve type"

/-- The argument shape of `serializeConfigValue`
(`src/unnamed/part_001`): the generated `UpdatePoolConfigValueKind` union is
not under the shipped sources, so `otherKind` stands in for every non-`Bool`
variant of it; the `Bool` variant carries an array of booleans. -/
inductive UpdatePoolConfigValueKind where
  | bool (value : List Bool) : UpdatePoolConfigValueKind
  | otherKind : UpdatePoolConfigValueKind
deriving DecidableEq

/-- Overwrite the first entry of a list, as `buffer.writeUInt8 x 0` does on a
preallocated buffer. -/
def writeHead (l : List ℕ) (x : ℕ) : List ℕ :=
  match l with
  | [] => []
  | _ :: t => x :: t

/-- `serializeConfigValue` from `src/unnamed/part_001`: on the `Bool` kind it
allocates a 32-byte zero buffer and writes 1 or 0 at index 0 depending on the
truthiness of `value[0]`; on any other kind the buffer is never assigned and
spreading it throws. -/
def serializeConfigValue (val : UpdatePoolConfigValueKind) : Except String (List ℕ) :=
  match val with
  | .bool value =>
      let buffer := List.replicate 32 0
      .ok (writeHead buffer (if value.headD false then 1 else 0))
  | .otherKind => .error "buffer is not assigned"

/-- `TRADING_FEE_NUMERATOR` from `src/js/test/hyperplane-test.ts` line 37. -/
def TRADING_FEE_NUMERATOR : ℕ := 25

/-- `TRADING_FEE_DENOMINATOR` from `src/js/test/hyperplane-test.ts` line 38. -/
def TRADING_FEE_DENOMINATOR : ℕ := 10000

/-- `OWNER_TRADING_FEE_NUMERATOR` from `src/js/test/hyperplane-test.ts` line 39. -/
def OWNER_TRADING_FEE_NUMERATOR : ℕ := 5

/-- `OWNER_TRADING_FEE_DENOMINATOR` from `src/js/test/hyperplane-test.ts` line 40. -/
def OWNER_TRADING_FEE_DENOMINATOR : ℕ := 10000

/-- `tradingTokensToPoolTokens` from `src/js/test/hyperplane-test.ts` lines
535–547 (JavaScript number arithmetic idealized as real arithmetic): trade
fee and owner-trade fee are each charged on half the deposit, computed
independently from the same `sourceAmount`, then
`floor(poolAmount * (sqrt(sourceAmountPostFee / swapSourceAmount + 1) - 1))`. -/
noncomputable def tradingTokensToPoolTokens
    (sourceAmount swapSourceAmount poolAmount : ℕ) : ℤ :=
  let tradingFee : ℝ :=
    ((sourceAmount : ℝ) / 2) * ((TRADING_FEE_NUMERATOR : ℝ) / (TRADING_FEE_DENOMINATOR : ℝ))
  let ownerTradingFee : ℝ :=
    ((sourceAmount : ℝ) / 2) *
      ((OWNER_TRADING_FEE_NUMERATOR : ℝ) / (OWNER_TRADING_FEE_DENOMINATOR : ℝ))
  let sourceAmountPostFee : ℝ := (sourceAmount : ℝ) - tradingFee - ownerTradingFee
  let root : ℝ := Real.sqrt (sourceAmountPostFee / (swapSourceAmount : ℝ) + 1)
  ⌊(poolAmount : ℝ) * (root - 1)⌋

/-- Modelled from the spec: the single-sided deposit conversion of §4.2 —
`poolAmount = floor(poolSupply * (sqrt(1 + sourceAmountPostFee/sourceReserve) - 1))`
where `sourceAmountPostFee` excludes half the trade fee and half the
owner-trade fee, each applied to half the deposit independently, not cascaded
(the on-chain engine is not under the shipped sources). -/
noncomputable def tokensToPoolTokensSpec
    (tfn tfd otn otd sourceAmount sourceReserve poolSupply : ℕ) : ℤ :=
  let sourceAmountPostFee : ℝ :=
    (sourceAmount : ℝ) - ((sourceAmount : ℝ) / 2) * ((tfn : ℝ) / (tfd : ℝ)) -
      ((sourceAmount : ℝ) / 2) * ((otn : ℝ) / (otd : ℝ))
  ⌊(poolSupply : ℝ) * (Real.sqrt (1 + sourceAmountPostFee / (sourceReserve : ℝ)) - 1)⌋

/-- Little-endian base-256 digits of a natural number, minimal length
(empty for 0) — the digit list underlying `BN`'s byte representation. -/
def leBytes (n : ℕ) : List ℕ :=
  if h : n = 0 then [] else n % 256 :: leBytes (n / 256)
termination_by n
decreasing_by exact Nat.div_lt_self (Nat.pos_of_ne_zero h) (by norm_num)

/-- `BN.toArray()` as used by `Numberu64.toBuffer`: the minimal big-endian
byte array of the number, `[0]` for zero. -/
def toArray (n : ℕ) : List ℕ :=
  if n = 0 then [0] else (leBytes n).reverse

/-- `Numberu64.toBuffer` (`src/js/src/index.ts` lines 40–51): reverse the
big-endian array to little-endian; return it if exactly 8 bytes, zero-pad at
the high end if shorter, and throw `Numberu64 too large` if longer. -/
def numberu64ToBuffer (n : ℕ) : Except String (List ℕ) :=
  let b := (toArray n).reverse
  if b.length = 8 then .ok b
  else if b.length < 8 then .ok (b ++ List.replicate (8 - b.length) 0)
  else .error "Numberu64 too large"

/-- `Numberu64.fromBuffer` (`src/js/src/index.ts` lines 56–65): assert the
buffer is exactly 8 bytes, reverse it to big-endian and parse the hex digits
— numerically a big-endian base-256 fold. -/
def numberu64FromBuffer (l : List ℕ) : Except String ℕ :=
  if l.length = 8 then .ok (l.reverse.foldl (fun acc b => acc * 256 + b) 0)
  else .error "Invalid buffer length"

/-- Numeric value of a little-endian byte list. -/
def leVal (l : List ℕ) : ℕ := l.foldr (fun b acc => acc * 256 + b) 0

/-- The token-account balances a swap touches, plus a liquidity provider's
pool-token account, for stating the swap's frame effect. -/
structure AccountState where
  sourceVault : ℕ
  destVault : ℕ
  userSource : ℕ
  userDest : ℕ
  lpPoolTokenAccount : ℕ
deriving DecidableEq

/-- Modelled from the spec: the balance effect of a successful swap (§4.3) —
the source vault gains the gross `amountIn` (net fees are retained in the
pool, not deducted from what the user pays in), the destination vault loses
`amountOut`, the user receives `amountOut`, and pool-token accounts of
liquidity providers are untouched (the engine itself is not under the shipped
sources; the reference assertions appear in `src/js/test/hyperplane-test.ts`
lines 505–523). -/
def applySwap (f : Fees) (withdrawalsOnly : Bool) (st : AccountState)
    (amountIn minimumAmountOut : ℕ) : Except SwapError AccountState :=
  match swap f withdrawalsOnly st.sourceVault st.destVault amountIn minimumAmountOut with
  | .error e => .error e
  | .ok r =>
      .ok ⟨st.sourceVault + amountIn, st.destVault - r.amountOut,
           st.userSource - amountIn, st.userDest + r.amountOut,
           st.lpPoolTokenAccount⟩

/-- C1: for a ConstantProduct pool with reserves (1_000_000, 1_000_000), trade
fee 25/10000, owner-trade fee 5/10000 and host fee 20/100, a swap of
`amountIn = 100_000` with `minimumAmountOut = 90_661` succeeds with
`amountOut = 90_661` and an owner fee of `floor(100_000 * 5/10000) = 50`
retained on the source side (the new source reserve holds the full gross
input `1_000_000 + 100_000`), while `minimumAmountOut = 90_662` fails with
`SlippageExceeded`. -/
theorem c1_swap_amounts :
    swap productionFees false 1000000 1000000 100000 90661 =
      .ok ⟨90661, 250, 50, 10, 1100000, 909339⟩ ∧
    (swap productionFees false 1000000 1000000 100000 90661).map
        (fun r => r.ownerFee) = .ok (100000 * 5 / 10000) ∧
    swap productionFees false 1000000 1000000 100000 90662 =
      .error .slippageExceeded := by
  refine ⟨?_, ?_, ?_⟩ <;> rfl

/-- C6: a fee ratio with denominator 0 always yields a fee of exactly 0, for
every amount and every numerator — fee disabled, never a division by zero. -/
theorem c6_zero_denominator_fee_disabled (amount n : ℕ) : fee amount n 0 = 0 := by
  simp [fee]

/-- C2: for every `withdrawAllTokenTypes` call with pool-token amount `p`,
reserves `(a, b)` and positive supply `s`, the owner-withdraw fee
`floor(p * num / den)` is taken out of `p` first and credited to the fee
vault in pool tokens, and the returned amounts are
`tokenA = floor(a * (p - fee) / s)` and `tokenB = floor(b * (p - fee) / s)`,
each reserve converted independently. -/
theorem c2_withdraw_all_conversion (f : Fees) (a b s p : ℕ) (hs : 0 < s)
    (hd : 0 < f.ownerWithdrawFeeDenominator) :
    withdrawAllTokenTypes f a b s p 0 0 =
      .ok (p * f.ownerWithdrawFeeNumerator / f.ownerWithdrawFeeDenominator,
           a * (p - p * f.ownerWithdrawFeeNumerator / f.ownerWithdrawFeeDenominator) / s,
           b * (p - p * f.ownerWithdrawFeeNumerator / f.ownerWithdrawFeeDenominator) / s) := by
  unfold withdrawAllTokenTypes fee
  simp [hs.ne', hd.ne']

/-- C2 witness: with the localnet fee configuration (owner-withdraw fee 1/6),
reserves `(1_000_000, 1_000_000)`, supply `1_000_000_000` and pool-token
amount `10_000_000`, the fee vault is credited `1_666_666` pool tokens and
each side returns `8_333` tokens. -/
theorem c2_withdraw_all_conversion_witness :
    withdrawAllTokenTypes localnetFees 1000000 1000000 1000000000 10000000 0 0 =
      .ok (1666666, 8333, 8333) := by
  have h := c2_withdraw_all_conversion localnetFees 1000000 1000000 1000000000 10000000
    (by norm_num) (by norm_num [localnetFees])
  exact h.trans (by rfl)

/-- C4: for every total swap fee `F` and host fee ratio `hn/hd` with
`hn ≤ hd` (a valid fee configuration), the host fee equals
`floor(F * hn / hd)` whenever the ratio is enabled, and the owner receives
exactly `F` minus the host fee — the host fee is sliced out of the owner fee,
never added on top, so `hostFee + ownerFee = F` exactly. -/
theorem c4_host_fee_sliced_from_owner_fee (F hn hd : ℕ) (h : hn ≤ hd) :
    hostSwapFee F hn hd + ownerSwapFee F hn hd = F ∧
    (hd ≠ 0 → hostSwapFee F hn hd = F * hn / hd) := by
  have hle : hostSwapFee F hn hd ≤ F := by
    unfold hostSwapFee fee
    split
    · exact Nat.zero_le F
    · next h0 =>
      calc F * hn / hd ≤ F * hd / hd :=
            Nat.div_le_div_right (Nat.mul_le_mul_left F h)
        _ = F := Nat.mul_div_cancel F (Nat.pos_of_ne_zero h0)
  refine ⟨?_, ?_⟩
  · unfold ownerSwapFee
    omega
  · intro h0
    unfold hostSwapFee fee
    simp [h0]

/-- C4 witness: with the test suite's production-mode numbers
(`SWAP_FEE = 22727`, host fee 20/100) the host receives
`floor(22727 * 20 / 100) = 4545` and the owner the remaining `18182`,
summing exactly to the total fee. -/
theorem c4_host_fee_sliced_from_owner_fee_witness :
    hostSwapFee 22727 20 100 + ownerSwapFee 22727 20 100 = 22727 ∧
    hostSwapFee 22727 20 100 = 22727 * 20 / 100 :=
  ⟨(c4_host_fee_sliced_from_owner_fee 22727 20 100 (by norm_num)).1,
   (c4_host_fee_sliced_from_owner_fee 22727 20 100 (by norm_num)).2 (by norm_num)⟩

/-- C5: the pool's operating mode is a two-state machine over the
`withdrawalsOnly` flag — the admin config update `setMode(WithdrawalsOnly, v)`
makes the loaded pool report `withdrawalsOnly = v`, the update is idempotent,
the stored field only ever holds one of the two states, and from any state
both states remain reachable (no terminal state). -/
theorem c5_withdrawals_only_state_machine (raw : ℕ) (v : Bool) :
    loadWithdrawalsOnly (updatePoolConfigWithdrawalsOnly raw v) = v ∧
    updatePoolConfigWithdrawalsOnly (updatePoolConfigWithdrawalsOnly raw v) v =
      updatePoolConfigWithdrawalsOnly raw v ∧
    (updatePoolConfigWithdrawalsOnly raw v = 0 ∨
      updatePoolConfigWithdrawalsOnly raw v = 1) ∧
    (∃ u, loadWithdrawalsOnly (updatePoolConfigWithdrawalsOnly raw u) = true) ∧
    (∃ u, loadWithdrawalsOnly (updatePoolConfigWithdrawalsOnly raw u) = false) := by
  cases v <;>
    refine ⟨rfl, rfl, ?_, ⟨true, rfl⟩, ⟨false, rfl⟩⟩ <;>
      simp [updatePoolConfigWithdrawalsOnly]

/-- C7 counterexample: no curve-type tag ever constructs the spec's
`StableSwap {amplifier}` variant — `getCurveParams` only builds
ConstantProduct, ConstantPrice and Offset, so the constructor is not total
over the four spec variants. -/
theorem c7_no_stable_swap_counterexample :
    ¬ ∃ (t p a : ℕ), getCurveParams t p = .ok (.stableSwap a) := by
  rintro ⟨t, p, a, h⟩
  rcases t with _ | _ | _ | _ | t <;> simp [getCurveParams] at h

/-- C7 amended: the curve-parameter constructor is total over exactly the
three client variants — tag 1 yields `ConstantProduct`, tag 2 yields
`ConstantPrice {tokenBPrice}`, tag 3 yields `Offset {tokenBOffset}`, and
every other tag fails with `invalid curve type` rather than succeeding. -/
theorem c7_curve_constructor_amended (t p : ℕ) :
    getCurveParams 1 p = .ok .constantProduct ∧
    getCurveParams 2 p = .ok (.constantPrice p) ∧
    getCurveParams 3 p = .ok (.offset p) ∧
    (t ≠ 1 ∧ t ≠ 2 ∧ t ≠ 3 → getCurveParams t p = .error "invalid curve type") := by
  refine ⟨rfl, rfl, rfl, ?_⟩
  rintro ⟨h1, h2, h3⟩
  rcases t with _ | _ | _ | _ | t
  · rfl
  · exact absurd rfl h1
  · exact absurd rfl h2
  · exact absurd rfl h3
  · rfl

/-- C7 witness: the unmapped tag 4 fails with `invalid curve type`. -/
theorem c7_curve_constructor_amended_witness :
    getCurveParams 4 9 = .error "invalid curve type" :=
  (c7_curve_constructor_amended 4 9).2.2.2 ⟨by decide, by decide, by decide⟩

/-- C10: `serializeConfigValue` on a `Bool` value returns exactly 32 bytes,
the first being 1 when the boolean is true and 0 when it is false, all
remaining 31 bytes zero; on any other kind it fails because the buffer is
never assigned. -/
theorem c10_serialize_config_value (vs : List Bool) :
    ∃ l, serializeConfigValue (.bool vs) = .ok l ∧
      l.length = 32 ∧
      l.headD 0 = (if vs.headD false then 1 else 0) ∧
      List.drop 1 l = List.replicate 31 0 ∧
      ∃ e, serializeConfigValue .otherKind = .error e := by
  refine ⟨(if vs.headD false then 1 else 0) :: List.replicate 31 0, ?_, by simp, rfl, rfl,
    ⟨_, rfl⟩⟩
  unfold serializeConfigValue
  rw [List.replicate_succ]
  rfl

/-- A successful swap never pays out more than the destination reserve
holds: the constant product output is `reserveOut` minus a ceiling
division. -/
theorem swap_amountOut_le_reserveOut (f : Fees) (w : Bool)
    (reserveIn reserveOut amountIn minOut : ℕ) (r : SwapResult)
    (h : swap f w reserveIn reserveOut amountIn minOut = .ok r) :
    r.amountOut ≤ reserveOut := by
  simp only [swap] at h
  split at h
  · cases h
  · split at h
    · cases h
    · split at h
      · cases h
      · injection h with h
        subst h
        exact Nat.sub_le _ _

/-- C8: whenever `applySwap` succeeds, the source-side vault has increased by
exactly the gross `amountIn` (fees are retained in the pool rather than
deducted from what the user pays in), the destination-side vault has
decreased by exactly the computed `amountOut`, the user has received exactly
`amountOut`, and the liquidity provider's pool-token account balance is
unchanged. -/
theorem c8_swap_frame_effect (f : Fees)
    (sourceVault destVault userSource userDest lpTokens amountIn minOut : ℕ)
    (st' : AccountState)
    (h : applySwap f false ⟨sourceVault, destVault, userSource, userDest, lpTokens⟩
          amountIn minOut = .ok st') :
    ∃ r, swap f false sourceVault destVault amountIn minOut = .ok r ∧
      st'.sourceVault = sourceVault + amountIn ∧
      st'.destVault + r.amountOut = destVault ∧
      st'.userDest = userDest + r.amountOut ∧
      st'.lpPoolTokenAccount = lpTokens := by
  unfold applySwap at h
  cases hsw : swap f false sourceVault destVault amountIn minOut with
  | error e => rw [hsw] at h; cases h
  | ok r =>
    rw [hsw] at h
    injection h with h
    subst h
    have hle := swap_amountOut_le_reserveOut f false sourceVault destVault amountIn minOut r hsw
    exact ⟨r, rfl, rfl, by simpa using Nat.sub_add_cancel hle, rfl, rfl⟩

/-- C8 witness: the C1 swap applied to concrete balances — the source vault
goes from 1_000_000 to 1_100_000 (the full gross input), the destination
vault loses the 90_661 paid out, the user receives 90_661, and a liquidity
provider's pool-token balance of 7 is unchanged. -/
theorem c8_swap_frame_effect_witness :
    ∃ r, swap productionFees false 1000000 1000000 100000 90661 = .ok r ∧
      (1100000 : ℕ) = 1000000 + 100000 ∧
      909339 + r.amountOut = 1000000 ∧
      (90661 : ℕ) = 0 + r.amountOut ∧
      (7 : ℕ) = 7 :=
  c8_swap_frame_effect productionFees 1000000 1000000 100000 0 7 100000 90661
    ⟨1100000, 909339, 0, 90661, 7⟩ (by rfl)

theorem leVal_nil : leVal [] = 0 := rfl

theorem leVal_cons (x : ℕ) (l : List ℕ) : leVal (x :: l) = leVal l * 256 + x := rfl

/-- The little-endian digits of `n` evaluate back to `n`. -/
theorem leVal_leBytes (n : ℕ) : leVal (leBytes n) = n := by
  induction n using Nat.strong_induction_on with
  | _ n ih =>
    rw [leBytes]
    split
    · next h => simp [h, leVal_nil]
    · next h =>
      rw [leVal_cons, ih (n / 256) (Nat.div_lt_self (Nat.pos_of_ne_zero h) (by norm_num))]
      have := Nat.div_add_mod n 256
      omega

/-- The digit list of `n` fits in `k` bytes exactly when `n < 256 ^ k`. -/
theorem leBytes_length_le_iff (k : ℕ) : ∀ n : ℕ, (leBytes n).length ≤ k ↔ n < 256 ^ k := by
  induction k with
  | zero =>
    intro n
    rw [leBytes]
    split
    · next h => simp [h]
    · next h =>
      simp only [pow_zero, List.length_cons, Nat.lt_one_iff]
      omega
  | succ k ih =>
    intro n
    rw [leBytes]
    split
    · next h =>
      subst h
      simp only [List.length_nil, Nat.zero_le, true_iff]
      positivity
    · next h =>
      simp only [List.length_cons, Nat.succ_le_succ_iff, ih, pow_succ]
      exact Nat.div_lt_iff_lt_mul (by norm_num)

/-- Zero bytes appended at the high (little-endian) end do not change the
value. -/
theorem leVal_append_zeros (l : List ℕ) (k : ℕ) :
    leVal (l ++ List.replicate k 0) = leVal l := by
  induction l with
  | nil =>
    simp only [List.nil_append, leVal_nil]
    induction k with
    | zero => rfl
    | succ k ihk => rw [List.replicate_succ, leVal_cons, ihk]
  | cons x t ih => rw [List.cons_append, leVal_cons, leVal_cons, ih]

/-- The left fold over the reversed buffer used by `fromBuffer` computes the
little-endian value of the buffer. -/
theorem foldl_reverse_leVal (l : List ℕ) :
    l.reverse.foldl (fun acc b => acc * 256 + b) 0 = leVal l := by
  rw [List.foldl_reverse]
  rfl

/-- C9: `Numberu64` serialization round-trips — for every `n < 2^64`,
`toBuffer` returns exactly 8 little-endian zero-padded bytes and `fromBuffer`
recovers `n`; `toBuffer` throws for every value whose byte representation
exceeds 8 bytes, and `fromBuffer` throws for every buffer whose length is not
exactly 8. -/
theorem c9_numberu64_roundtrip :
    (∀ n : ℕ, n < 2 ^ 64 →
      ∃ b, numberu64ToBuffer n = .ok b ∧ b.length = 8 ∧
        numberu64FromBuffer b = .ok n) ∧
    (∀ n : ℕ, 2 ^ 64 ≤ n → numberu64ToBuffer n = .error "Numberu64 too large") ∧
    (∀ l : List ℕ, l.length ≠ 8 → numberu64FromBuffer l = .error "Invalid buffer length") := by
  have h64 : (256 : ℕ) ^ 8 = 2 ^ 64 := by norm_num
  refine ⟨?_, ?_, ?_⟩
  · intro n hn
    have hval : leVal ((toArray n).reverse) = n := by
      unfold toArray
      split
      · next h => simp [h, leVal_cons, leVal_nil]
      · next h =>
        rw [List.reverse_reverse]
        exact leVal_leBytes n
    have hlen : ((toArray n).reverse).length ≤ 8 := by
      unfold toArray
      split
      · simp
      · simp only [List.length_reverse]
        exact (leBytes_length_le_iff 8 n).mpr (h64 ▸ hn)
    unfold numberu64ToBuffer
    by_cases hb : ((toArray n).reverse).length = 8
    · refine ⟨(toArray n).reverse, ?_, hb, ?_⟩
      · simp [hb]
      · unfold numberu64FromBuffer
        rw [if_pos hb, foldl_reverse_leVal, hval]
    · have hlt : ((toArray n).reverse).length < 8 := lt_of_le_of_ne hlen hb
      refine ⟨(toArray n).reverse ++ List.replicate (8 - ((toArray n).reverse).length) 0,
        ?_, ?_, ?_⟩
      · simp only [hb, if_false, hlt, if_true]
      · simp only [List.length_append, List.length_replicate]
        omega
      · have hl8 : ((toArray n).reverse ++
            List.replicate (8 - ((toArray n).reverse).length) 0).length = 8 := by
          simp only [List.length_append, List.length_replicate]
          omega
        unfold numberu64FromBuffer
        rw [if_pos hl8, foldl_reverse_leVal, leVal_append_zeros, hval]
  · intro n hn
    have hn0 : n ≠ 0 := by
      intro h
      rw [h] at hn
      exact absurd hn (by norm_num)
    have hgt : ¬ ((leBytes n).length ≤ 8) := by
      rw [leBytes_length_le_iff 8 n, h64]
      omega
    unfold numberu64ToBuffer toArray
    rw [if_neg hn0, List.reverse_reverse]
    rw [if_neg (by omega), if_neg (by omega)]
  · intro l hl
    unfold numberu64FromBuffer
    rw [if_neg hl]

/-- C9 witness: `3` serializes to an 8-byte buffer that deserializes back to
`3`; `2^64` is rejected as too large, and a 3-byte buffer is rejected as an
invalid length. -/
theorem c9_numberu64_roundtrip_witness :
    (∃ b, numberu64ToBuffer 3 = .ok b ∧ b.length = 8 ∧
      numberu64FromBuffer b = .ok 3) ∧
    numberu64ToBuffer (2 ^ 64) = .error "Numberu64 too large" ∧
    numberu64FromBuffer [1, 2, 3] = .error "Invalid buffer length" :=
  ⟨c9_numberu64_roundtrip.1 3 (by norm_num),
   c9_numberu64_roundtrip.2.1 (2 ^ 64) (le_refl _),
   c9_numberu64_roundtrip.2.2 [1, 2, 3] (by norm_num)⟩

/-- C3: for every single-sided deposit, the spec's pool-token formula
`floor(poolSupply * (sqrt(1 + sourceAmountPostFee/sourceReserve) - 1))` with
trade fee 25/10000 and owner-trade fee 5/10000 each applied to half the
deposit independently coincides with the test suite's reference computation
`tradingTokensToPoolTokens`. -/
theorem c3_single_sided_deposit_formula (sourceAmount sourceReserve poolSupply : ℕ) :
    tokensToPoolTokensSpec 25 10000 5 10000 sourceAmount sourceReserve poolSupply =
      tradingTokensToPoolTokens sourceAmount sourceReserve poolSupply := by
  simp only [tokensToPoolTokensSpec, tradingTokensToPoolTokens,
    TRADING_FEE_NUMERATOR, TRADING_FEE_DENOMINATOR,
    OWNER_TRADING_FEE_NUMERATOR, OWNER_TRADING_FEE_DENOMINATOR]
  rw [add_comm (1 : ℝ)]

end Hyperplane
